import Mathlib

/-!
Verification of the entity-resolution core of a catalog synchronisation
script (`notion_musicbrainz_sync.py`).  The Python functions relevant to the
claims are shallowly embedded as executable Lean definitions: dictionaries
become structures or `String → Option _` maps, absent/falsy string fields are
modelled as `""` or `Option`, Python sets become deduplicated lists, and the
retry loop's fractional waits become exact rationals.  All characters are
treated at ASCII level, matching the script's regex character class
`[a-zA-Z0-9]` and core `Char.toLower`/`Char.toUpper`.
-/

namespace MusicSync

/-! ## Title normalizer (`_normalize_title_for_matching`, `_titles_match_exactly`) -/

/-- The character class `[a-zA-Z0-9]` of the regex in
`_normalize_title_for_matching`, read off the character code. -/
def alnumAscii (c : Char) : Bool :=
  (97 ≤ c.toNat && c.toNat ≤ 122) || (65 ≤ c.toNat && c.toNat ≤ 90) ||
    (48 ≤ c.toNat && c.toNat ≤ 57)

/-- Whitespace as recognised by the regex class `\s` and by `str.split()`
(space, tab, newline, carriage return, vertical tab, form feed). -/
def pySpace (c : Char) : Bool :=
  c.toNat = 32 || c.toNat = 9 || c.toNat = 10 || c.toNat = 13 ||
    c.toNat = 11 || c.toNat = 12

/-- Per-character effect of `re.sub(r'[^a-zA-Z0-9\s]', ' ', title)` followed by
`.lower()`: characters outside the kept class become a space, then the result
is lowercased. -/
def normChar (c : Char) : Char :=
  Char.toLower (if alnumAscii c || pySpace c then c else ' ')

/-- Accumulator-style word splitter implementing Python's `str.split()`:
runs of whitespace separate words, empty words are never produced. -/
def wordsAux : List Char → List Char → List (List Char)
  | [], acc => if acc.isEmpty then [] else [acc.reverse]
  | c :: cs, acc =>
      if pySpace c then
        if acc.isEmpty then wordsAux cs []
        else acc.reverse :: wordsAux cs []
      else wordsAux cs (c :: acc)

/-- Python's `str.split()` on a character list. -/
def pyWords (l : List Char) : List (List Char) := wordsAux l []

/-- Normalisation of a title's character list: substitute and lowercase each
character, then split into words. -/
def normalizeChars (l : List Char) : List (List Char) :=
  pyWords (l.map normChar)

/-- `_normalize_title_for_matching(title)`.  The argument is `Option String`
because the Python function is also called with `None`; `none` and the empty
string both take the `if not title: return []` early exit. -/
def normalize_title_for_matching (title : Option String) : List String :=
  match title with
  | none => []
  | some s => if s.data = [] then [] else (normalizeChars s.data).map String.mk

/-- `_titles_match_exactly(title1, title2)`: the normalised word lists are
compared for equality. -/
def titles_match_exactly (title1 title2 : Option String) : Bool :=
  decide (normalize_title_for_matching title1 = normalize_title_for_matching title2)

/-- Python's `str.lower()` restricted to ASCII, used to state
case-insensitivity. -/
def pyLower (s : String) : String := String.mk (s.data.map Char.toLower)

theorem pySpace_iff (c : Char) :
    pySpace c = true ↔ c.toNat = 32 ∨ c.toNat = 9 ∨ c.toNat = 10 ∨
      c.toNat = 13 ∨ c.toNat = 11 ∨ c.toNat = 12 := by
  simp [pySpace, or_assoc]

theorem char_toNat_ofNat (n : Nat) (h : n < 55296) : (Char.ofNat n).toNat = n := by
  have hv : n.isValidChar := Or.inl h
  simp only [Char.ofNat, dif_pos hv]
  simp [Char.ofNatAux, Char.toNat, UInt32.toNat]

theorem toLower_toNat_of_upper (c : Char) (h1 : 65 ≤ c.toNat) (h2 : c.toNat ≤ 90) :
    (Char.toLower c).toNat = c.toNat + 32 := by
  simp only [Char.toLower]
  rw [if_pos ⟨h1, h2⟩]
  exact char_toNat_ofNat _ (by omega)

theorem toLower_of_not_upper (c : Char) (h : ¬(65 ≤ c.toNat ∧ c.toNat ≤ 90)) :
    Char.toLower c = c := by
  simp only [Char.toLower]
  rw [if_neg h]

theorem normChar_toLower (c : Char) : normChar (Char.toLower c) = normChar c := by
  by_cases h : 65 ≤ c.toNat ∧ c.toNat ≤ 90
  · have hlow : (Char.toLower c).toNat = c.toNat + 32 :=
      toLower_toNat_of_upper c h.1 h.2
    have halnum : alnumAscii (Char.toLower c) = true := by
      simp [alnumAscii, hlow]
      omega
    have halnumc : alnumAscii c = true := by
      simp [alnumAscii]
      omega
    simp only [normChar, halnum, halnumc, Bool.true_or, if_pos]
    exact toLower_of_not_upper _ (by omega)
  · rw [toLower_of_not_upper c h]

theorem pySpace_normChar_of_not_alnum (c : Char) (h : alnumAscii c = false) :
    pySpace (normChar c) = true := by
  by_cases hs : pySpace c = true
  · have hrange : ¬(65 ≤ c.toNat ∧ c.toNat ≤ 90) := by
      rw [pySpace_iff] at hs
      rcases hs with h' | h' | h' | h' | h' | h' <;> omega
    simp only [normChar, h, hs, Bool.false_or, if_pos,
      toLower_of_not_upper c hrange]
  · have hs' : pySpace c = false := by
      cases hp : pySpace c
      · rfl
      · exact absurd hp hs
    simp only [normChar, h, hs', Bool.or_self, Bool.false_eq_true, if_false]
    decide

theorem wordsAux_space_cons (c : Char) (h : pySpace c = true) (cs : List Char)
    (acc : List Char) :
    wordsAux (c :: cs) acc
      = (if acc.isEmpty then [] else [acc.reverse]) ++ wordsAux cs [] := by
  cases hacc : acc.isEmpty <;> simp [wordsAux, h, hacc]

theorem wordsAux_space_congr (c c' : Char) (h : pySpace c = true)
    (h' : pySpace c' = true) (u y : List Char) :
    ∀ acc, wordsAux (u ++ c :: y) acc = wordsAux (u ++ c' :: y) acc := by
  induction u with
  | nil =>
      intro acc
      rw [List.nil_append, List.nil_append, wordsAux_space_cons c h,
        wordsAux_space_cons c' h']
  | cons a u ih =>
      intro acc
      by_cases ha : pySpace a = true
      · rw [List.cons_append, List.cons_append, wordsAux_space_cons a ha,
          wordsAux_space_cons a ha, ih]
      · have ha' : pySpace a = false := by
          cases hp : pySpace a
          · rfl
          · exact absurd hp ha
        simp only [List.cons_append, wordsAux, ha', Bool.false_eq_true, if_false]
        exact ih _

theorem wordsAux_space_collapse (c : Char) (h : pySpace c = true) (u y : List Char) :
    ∀ acc, wordsAux (u ++ c :: c :: y) acc = wordsAux (u ++ c :: y) acc := by
  induction u with
  | nil =>
      intro acc
      rw [List.nil_append, List.nil_append, wordsAux_space_cons c h (c :: y) acc,
        wordsAux_space_cons c h y [], wordsAux_space_cons c h y acc]
      simp
  | cons a u ih =>
      intro acc
      by_cases ha : pySpace a = true
      · rw [List.cons_append, List.cons_append, wordsAux_space_cons a ha,
          wordsAux_space_cons a ha, ih]
      · have ha' : pySpace a = false := by
          cases hp : pySpace a
          · rfl
          · exact absurd hp ha
        simp only [List.cons_append, wordsAux, ha', Bool.false_eq_true, if_false]
        exact ih _

theorem normalizeChars_sep_congr (u v : List Char) (c : Char)
    (h : alnumAscii c = false) :
    normalizeChars (u ++ c :: v) = normalizeChars (u ++ ' ' :: v) := by
  have hc : pySpace (normChar c) = true := pySpace_normChar_of_not_alnum c h
  have hsp : pySpace (normChar ' ') = true := by
    apply pySpace_normChar_of_not_alnum
    decide
  simp only [normalizeChars, pyWords, List.map_append, List.map_cons]
  exact wordsAux_space_congr _ _ hc hsp _ _ []

theorem normalizeChars_run_collapse (u v : List Char) (c : Char)
    (h : alnumAscii c = false) :
    normalizeChars (u ++ c :: c :: v) = normalizeChars (u ++ c :: v) := by
  have hc : pySpace (normChar c) = true := pySpace_normChar_of_not_alnum c h
  simp only [normalizeChars, pyWords, List.map_append, List.map_cons]
  exact wordsAux_space_collapse _ hc _ _ []

theorem map_normChar_toLower (l : List Char) :
    (l.map Char.toLower).map normChar = l.map normChar := by
  induction l with
  | nil => rfl
  | cons a l ih => simp [ih, normChar_toLower]

theorem normalize_pyLower (t : String) :
    normalize_title_for_matching (some (pyLower t))
      = normalize_title_for_matching (some t) := by
  have hdata : (pyLower t).data = t.data.map Char.toLower := rfl
  simp only [normalize_title_for_matching, hdata, List.map_eq_nil_iff]
  by_cases hd : t.data = []
  · simp [hd]
  · rw [if_neg hd, if_neg hd]
    congr 1
    simp only [normalizeChars]
    rw [map_normChar_toLower]

/-- C1: `_titles_match_exactly(t1, t2)` is true iff the two titles have equal
normalised word sequences; the relation is symmetric, insensitive to case
(lowercasing a title does not change its normalisation), and insensitive to
non-alphanumeric characters and to runs of them (a non-alphanumeric character
acts as a separator, and doubling it changes nothing); `"Abbey-Road!"` matches
`"abbey road"` and `"Abbey Road"` does not match `"Abbey Roads"`. -/
theorem C1_titles_match_exactly_spec :
    (∀ t1 t2 : Option String,
        titles_match_exactly t1 t2 = true ↔
          normalize_title_for_matching t1 = normalize_title_for_matching t2)
    ∧ (∀ t1 t2 : Option String,
        titles_match_exactly t1 t2 = titles_match_exactly t2 t1)
    ∧ (∀ t : String,
        normalize_title_for_matching (some (pyLower t))
          = normalize_title_for_matching (some t))
    ∧ (∀ (u v : List Char) (c : Char), alnumAscii c = false →
        normalizeChars (u ++ c :: v) = normalizeChars (u ++ ' ' :: v))
    ∧ (∀ (u v : List Char) (c : Char), alnumAscii c = false →
        normalizeChars (u ++ c :: c :: v) = normalizeChars (u ++ c :: v))
    ∧ titles_match_exactly (some "Abbey-Road!") (some "abbey road") = true
    ∧ titles_match_exactly (some "Abbey Road") (some "Abbey Roads") = false := by
  refine ⟨?_, ?_, normalize_pyLower, normalizeChars_sep_congr,
    normalizeChars_run_collapse, by decide, by decide⟩
  · intro t1 t2
    simp [titles_match_exactly]
  · intro t1 t2
    exact decide_eq_decide.mpr eq_comm

/-- C1 witness: the separator clause applied at a concrete input, the
hyphen of "ab-cd". -/
theorem C1_witness :
    normalizeChars ("ab".data ++ '-' :: "cd".data)
      = normalizeChars ("ab".data ++ ' ' :: "cd".data) :=
  C1_titles_match_exactly_spec.2.2.2.1 "ab".data "cd".data '-' (by decide)

/-- C10: titles with no alphanumeric characters normalise to the empty word
list, so any two of them (including the empty string and the absent title)
are judged an exact match by `_titles_match_exactly`. -/
theorem C10_empty_normalization_matches :
    normalize_title_for_matching (some "!!!") = []
    ∧ normalize_title_for_matching (some "???") = []
    ∧ titles_match_exactly (some "!!!") (some "???") = true
    ∧ (∀ t1 t2 : Option String, normalize_title_for_matching t1 = [] →
        normalize_title_for_matching t2 = [] → titles_match_exactly t1 t2 = true)
    ∧ normalize_title_for_matching none = []
    ∧ normalize_title_for_matching (some "") = []
    ∧ titles_match_exactly none (some "") = true := by
  refine ⟨by decide, by decide, by decide, ?_, rfl, by decide, by decide⟩
  intro t1 t2 h1 h2
  simp [titles_match_exactly, h1, h2]

/-- C10 witness: the universal clause applied to two concrete titles that
normalise to the empty sequence. -/
theorem C10_witness : titles_match_exactly (some "!!!") (some "--- !?") = true :=
  C10_empty_normalization_matches.2.2.2.1 (some "!!!") (some "--- !?")
    (by decide) (by decide)

/-! ## Release data model and scorer (`_score_release_for_song`) -/

/-- Python's `str.upper()` restricted to ASCII. -/
def pyUpper (s : String) : String := String.mk (s.data.map Char.toUpper)

/-- An area attached to a release event.  `isoCodes` models the value of
`area.get('iso-3166-1-codes', [''])`, so the Python `[0]` access is `headD ""`. -/
structure MBArea where
  isoCodes : List String
deriving DecidableEq, Repr

/-- One entry of a release's `release-events` list; `area = none` models an
absent or falsy `area` field and `date = ""` an absent date. -/
structure MBReleaseEvent where
  area : Option MBArea
  date : String
deriving DecidableEq, Repr

/-- A release's `release-group`; the whole group is `Option`al because the
code guards every access with the dictionary's truthiness. -/
structure MBReleaseGroup where
  rgType : String
  firstReleaseDate : String
deriving DecidableEq, Repr

/-- The `recording` dict of one track of a medium; `""` models a missing
`id` or `title` (both falsy cases are filtered identically). -/
structure MBTrackRec where
  recId : String
  recTitle : String
deriving DecidableEq, Repr

/-- One entry of a release's `media` list. -/
structure MBMedium where
  tracks : List MBTrackRec
deriving DecidableEq, Repr

/-- A (possibly partial) release record, carrying exactly the fields the
scorer and the verification helpers read; `""` models a missing string
field. -/
structure MBRelease where
  relId : String
  relTitle : String
  country : String
  releaseEvents : List MBReleaseEvent
  date : String
  releaseGroup : Option MBReleaseGroup
  media : List MBMedium
deriving DecidableEq, Repr

/-- Country extraction of `_score_release_for_song`: the release's own
`country` field uppercased, or failing that the first release-event's area's
first ISO 3166 code uppercased, else the empty string. -/
def releaseCountry (r : MBRelease) : String :=
  if r.country ≠ "" then pyUpper r.country
  else
    match r.releaseEvents with
    | [] => ""
    | e :: _ =>
        match e.area with
        | none => ""
        | some a =>
            let c := a.isoCodes.headD ""
            if c ≠ "" then pyUpper c else ""

/-- Lowercased release-group type (`release_group.get('type', '').lower()`
guarded by the group's truthiness). -/
def releaseGroupType (r : MBRelease) : String :=
  match r.releaseGroup with
  | none => ""
  | some g => pyLower g.rgType

/-- Raw date string selection of `_score_release_for_song`: release date,
then first release-event date, then release-group first-release date. -/
def releaseDateStr (r : MBRelease) : String :=
  if r.date ≠ "" then r.date
  else
    let d := match r.releaseEvents with
      | [] => ""
      | e :: _ => e.date
    if d ≠ "" then d
    else
      match r.releaseGroup with
      | none => ""
      | some g => g.firstReleaseDate

/-- Python's `str.zfill(2)` on the digit strings involved here. -/
def zfill2 (s : String) : String :=
  if 2 ≤ s.length then s else String.mk (List.replicate (2 - s.length) '0' ++ s.data)

/-- Last-day-of-month table of `_score_release_for_song` for a year-month
date (February is approximated by 28, exactly as in the code). -/
def monthLastDay (month : String) : String :=
  if month = "01" ∨ month = "03" ∨ month = "05" ∨ month = "07" ∨
      month = "08" ∨ month = "10" ∨ month = "12" then "31"
  else if month = "04" ∨ month = "06" ∨ month = "09" ∨ month = "11" then "30"
  else "28"

/-- Python's `date_str.split('-')` as a structural recursion on the
character list (so that it reduces in the kernel). -/
def splitDashAux : List Char → List Char → List (List Char)
  | [], cur => [cur.reverse]
  | c :: cs, cur =>
      if c = '-' then cur.reverse :: splitDashAux cs []
      else splitDashAux cs (c :: cur)

/-- Python's `str.split('-')`. -/
def splitOnDash (s : String) : List String := (splitDashAux s.data []).map String.mk

/-- Date normalisation of `_score_release_for_song`: `none` for an empty
date string, year-only dates pushed to Dec 31, year-month dates to the last
day of the month, full dates kept with zero-padded month and day. -/
def normalizeScoreDate (dateStr : String) : Option String :=
  if dateStr = "" then none
  else
    match splitOnDash dateStr with
    | [] => none
    | [year] => some (year ++ "-12-31")
    | [year, month] => some (year ++ "-" ++ zfill2 month ++ "-" ++ zfill2 (monthLastDay month))
    | year :: month :: day :: _ =>
        some (year ++ "-" ++ zfill2 month ++ "-" ++ zfill2 day)

/-- `_score_release_for_song(release)`: 100 points for a US country, 50 for
an `album` release-group type, and the normalised tie-break date (a missing
date becomes `"9999-12-31"`). -/
def score_release_for_song (r : MBRelease) : Int × String :=
  let country := releaseCountry r
  let rgType := releaseGroupType r
  let releaseDate := normalizeScoreDate (releaseDateStr r)
  let score : Int := (if country = "US" then 100 else 0) + (if rgType = "album" then 50 else 0)
  (score, releaseDate.getD "9999-12-31")

/-! ## Required-recording containment (`_release_contains_recordings`) -/

/-- `' '.join(self._normalize_title_for_matching(title))`. -/
def joinedNormalizedTitle (t : String) : String :=
  String.intercalate " " (normalize_title_for_matching (some t))

/-- All recording ids collected from a release's media tracks (falsy ids are
skipped, as in the set comprehension of the code). -/
def releaseRecordingIds (r : MBRelease) : List String :=
  (r.media.flatMap MBMedium.tracks).filterMap
    (fun t => if t.recId ≠ "" then some t.recId else none)

/-- All normalised recording titles collected from a release's media
tracks. -/
def releaseRecordingTitles (r : MBRelease) : List String :=
  (r.media.flatMap MBMedium.tracks).filterMap
    (fun t => if t.recTitle ≠ "" then some (joinedNormalizedTitle t.recTitle) else none)

/-- `_release_contains_recordings(release, mbids, titles)`: true when every
required id appears among the release's track recording ids and every
required title appears among the normalised track titles (each check active
only when its required list is nonempty). -/
def release_contains_recordings (r : MBRelease)
    (recordingMbids recordingTitles : List String) : Bool :=
  if recordingMbids = [] ∧ recordingTitles = [] then true
  else
    let relIds := releaseRecordingIds r
    let relTitles := releaseRecordingTitles r
    if recordingMbids ≠ [] ∧ ¬(recordingMbids.all (relIds.contains ·) = true) then false
    else if recordingTitles ≠ [] ∧
        ¬(recordingTitles.all (fun t => relTitles.contains (joinedNormalizedTitle t)) = true) then false
    else true

/-- Scored album candidate as built in `sync_album_page`: the score pair of
`_score_release_for_song` with a 1000-point bonus when the release is
verified (by `_release_contains_recordings`) to contain all required linked
songs. -/
structure ScoredCandidate where
  points : Int
  tieBreakDate : String
  containsSongs : Bool
deriving DecidableEq, Repr

/-- The scoring step of the album candidate loop (`score += 1000` on
verified containment; containment is only checked when some required song
evidence exists). -/
def scoreAlbumCandidate (r : MBRelease) (songMbids songTitles : List String) :
    ScoredCandidate :=
  let sd := score_release_for_song r
  let contains :=
    if songMbids ≠ [] ∨ songTitles ≠ [] then
      release_contains_recordings r songMbids songTitles
    else false
  { points := if contains then sd.1 + 1000 else sd.1
    tieBreakDate := sd.2
    containsSongs := contains }

/-- Python's candidate ordering `sort(key=lambda x: (-score, date))`: `a`
sorts strictly before `b` iff `a` has more points, or equal points and a
strictly earlier tie-break date. -/
def ranksStrictlyBefore (a b : Int × String) : Prop :=
  b.1 < a.1 ∨ (a.1 = b.1 ∧ a.2 < b.2)

/-- The tie-break date exactly as the claim words it: the first non-empty
entry of release date, first release-event date, release-group first-release
date, then normalised (missing date last). -/
def specTieBreakDate (r : MBRelease) : String :=
  let raw :=
    (([r.date,
        (match r.releaseEvents with | [] => "" | e :: _ => e.date),
        (match r.releaseGroup with | none => "" | some g => g.firstReleaseDate)]
      ).find? (· ≠ "")).getD ""
  (normalizeScoreDate raw).getD "9999-12-31"

/-- A concrete release with country `US`, release-group type `Album` and
year-only date `1995`. -/
def exampleRelease1995 : MBRelease :=
  { relId := "rid-1", relTitle := "Example", country := "US",
    releaseEvents := [], date := "1995",
    releaseGroup := some { rgType := "Album", firstReleaseDate := "" },
    media := [] }

theorem releaseDateStr_eq_spec (r : MBRelease) :
    releaseDateStr r =
      (([r.date,
          (match r.releaseEvents with | [] => "" | e :: _ => e.date),
          (match r.releaseGroup with | none => "" | some g => g.firstReleaseDate)]
        ).find? (· ≠ "")).getD "" := by
  unfold releaseDateStr
  by_cases h1 : r.date = ""
  · simp only [h1, ne_eq, not_true_eq_false, if_false, List.find?, decide_not,
      decide_True, Bool.not_true]
    by_cases h2 : (match r.releaseEvents with | [] => "" | e :: _ => e.date) = ""
    · by_cases h3 :
          (match r.releaseGroup with | none => "" | some g => g.firstReleaseDate) = ""
      · simp [h2, h3]
      · simp [h2, h3]
    · simp [h2]
  · simp [h1, List.find?]

/-- C2 (amended): `_score_release_for_song` returns the pair of (a) 100
points when the extracted country is `US` plus 50 points when the
release-group type is `album` case-insensitively, and (b) the tie-break
date taken with precedence release date, first release-event date,
release-group first-release date, with year-only dates normalised to
Dec 31, year-month dates to the last day of the month where February always
counts 28 days (even in leap years), and a missing date to `9999-12-31`; a
US `Album` release dated `1995` scores `(150, "1995-12-31")`. -/
theorem C2_score_release_spec :
    (∀ r : MBRelease,
        score_release_for_song r =
          ((if releaseCountry r = "US" then (100 : Int) else 0) +
            (if releaseGroupType r = "album" then 50 else 0),
           specTieBreakDate r))
    ∧ score_release_for_song exampleRelease1995 = (150, "1995-12-31") := by
  constructor
  · intro r
    unfold score_release_for_song specTieBreakDate
    rw [releaseDateStr_eq_spec]
  · decide

/-- The calendar's actual last day of a month, with the Gregorian leap-year
rule, as the claim's phrase "the last day of that month" denotes. -/
def gregorianLastDay (year month : Nat) : Nat :=
  if month = 1 ∨ month = 3 ∨ month = 5 ∨ month = 7 ∨ month = 8 ∨
      month = 10 ∨ month = 12 then 31
  else if month = 4 ∨ month = 6 ∨ month = 9 ∨ month = 11 then 30
  else if (year % 4 = 0 ∧ year % 100 ≠ 0) ∨ year % 400 = 0 then 29
  else 28

/-- A concrete release dated with the year-month string `2024-02`
(a leap-year February). -/
def exampleReleaseLeapFeb : MBRelease :=
  { relId := "rid-2", relTitle := "Example", country := "US",
    releaseEvents := [], date := "2024-02", releaseGroup := none,
    media := [] }

/-- C2 counterexample: the year-month date `2024-02` is normalised to
`2024-02-28`, but the last day of February 2024 is the 29th (leap year), so
the claimed normalisation "year-month date to the last day of that month"
fails on the code, which hard-codes 28 for February. -/
theorem C2_counterexample :
    normalizeScoreDate "2024-02" = some "2024-02-28"
      ∧ gregorianLastDay 2024 2 = 29
      ∧ (score_release_for_song exampleReleaseLeapFeb).2 = "2024-02-28"
      ∧ (score_release_for_song exampleReleaseLeapFeb).2 ≠ "2024-02-29" := by
  refine ⟨by decide, by decide, by decide, by decide⟩

/-- C6: in the album candidate loop, a release verified to contain all
required linked recordings scores exactly 1000 points more than one that
does not, all else equal; hence with identical country, release-group type
and tie-break date, the containing release always sorts strictly before the
non-containing one under the key `(-score, date)`. -/
theorem C6_required_songs_bonus_dominates :
    ∀ (r1 r2 : MBRelease) (songMbids songTitles : List String),
      releaseCountry r1 = releaseCountry r2 →
      releaseGroupType r1 = releaseGroupType r2 →
      (score_release_for_song r1).2 = (score_release_for_song r2).2 →
      songMbids ≠ [] ∨ songTitles ≠ [] →
      release_contains_recordings r1 songMbids songTitles = true →
      release_contains_recordings r2 songMbids songTitles = false →
      (scoreAlbumCandidate r1 songMbids songTitles).points
          = (scoreAlbumCandidate r2 songMbids songTitles).points + 1000
        ∧ ranksStrictlyBefore
            ((scoreAlbumCandidate r1 songMbids songTitles).points,
              (scoreAlbumCandidate r1 songMbids songTitles).tieBreakDate)
            ((scoreAlbumCandidate r2 songMbids songTitles).points,
              (scoreAlbumCandidate r2 songMbids songTitles).tieBreakDate) := by
  intro r1 r2 songMbids songTitles hc ht hd hreq h1 h2
  have hreq' : (songMbids ≠ [] ∨ songTitles ≠ []) = True := eq_true hreq
  have hs : (score_release_for_song r1).1 = (score_release_for_song r2).1 := by
    simp only [score_release_for_song, hc, ht]
  constructor
  · simp only [scoreAlbumCandidate, hreq', if_true, h1, h2, if_false,
      Bool.false_eq_true]
    omega
  · left
    simp only [scoreAlbumCandidate, hreq', if_true, h1, h2, if_false,
      Bool.false_eq_true]
    omega

/-- C6 witness: two concrete single-track releases, one containing the
required recording and one not, at equal country, type and date. -/
theorem C6_witness :
    (scoreAlbumCandidate
        { exampleRelease1995 with
          media := [{ tracks := [{ recId := "s1", recTitle := "Creep" }] }] }
        ["s1"] []).points
      = (scoreAlbumCandidate
          { exampleRelease1995 with
            media := [{ tracks := [{ recId := "s2", recTitle := "Other" }] }] }
          ["s1"] []).points + 1000 :=
  (C6_required_songs_bonus_dominates
    { exampleRelease1995 with
      media := [{ tracks := [{ recId := "s1", recTitle := "Creep" }] }] }
    { exampleRelease1995 with
      media := [{ tracks := [{ recId := "s2", recTitle := "Other" }] }] }
    ["s1"] [] rfl rfl rfl (Or.inl (by decide)) (by decide) (by decide)).1

/-! ## Relation-preserving merge (`_merge_relations`) -/

/-- A property value of a page: either a relation-typed value carrying its
entry ids (`""` models an entry whose `id` is missing or falsy), or any
other typed value, kept opaque. -/
inductive NotionPropValue where
  | relationVal (entries : List String)
  | otherVal (payload : String)
deriving DecidableEq, Repr

/-- A property dictionary, keyed by the per-database property key;
`none` models an absent key. -/
def NotionProps := String → Option NotionPropValue

/-- `props.get(key, {}).get('relation', [])` followed by the id-set
comprehension: the non-falsy entry ids of a relation value, and `[]` for an
absent key or a non-relation value. -/
def propRelationIds (p : NotionProps) (k : String) : List String :=
  match p k with
  | some (.relationVal es) => es.filter (· ≠ "")
  | _ => []

/-- Dictionary update `merged_properties[key] = value`. -/
def setProp (p : NotionProps) (k : String) (v : NotionPropValue) : NotionProps :=
  fun k' => if k' = k then some v else p k'

/-- The merged id set for one relation key: union of existing and new ids,
duplicate-free (Python computes a set union). -/
def mergedRelationIds (ex newProps : NotionProps) (k : String) : List String :=
  (propRelationIds ex k ++ propRelationIds newProps k).dedup

/-- The loop of `_merge_relations` over the configured relation property
keys: starting from a copy of the new properties, every relation key present
in the new properties is overwritten with the merged relation value; keys
absent from the new properties are left untouched. -/
def merge_relations_aux (ex newProps : NotionProps) :
    List String → NotionProps → NotionProps
  | [], acc => acc
  | k :: ks, acc =>
      merge_relations_aux ex newProps ks
        (if (newProps k).isSome then
          setProp acc k (.relationVal (mergedRelationIds ex newProps k))
        else acc)

/-- `_merge_relations(page, new_properties, database_type)`; `relKeys` is
the list of resolved relation property keys for the database type (artist,
songs, label for albums; artist, album for songs). -/
def merge_relations (relKeys : List String) (ex newProps : NotionProps) :
    NotionProps :=
  merge_relations_aux ex newProps relKeys newProps

theorem merge_relations_aux_absent (ex newProps : NotionProps) (k : String)
    (hk : newProps k = none) :
    ∀ (ks : List String) (acc : NotionProps),
      merge_relations_aux ex newProps ks acc k = acc k := by
  intro ks
  induction ks with
  | nil => intro acc; rfl
  | cons k' ks ih =>
      intro acc
      simp only [merge_relations_aux]
      rw [ih]
      by_cases hkk : (newProps k').isSome
      · rw [if_pos hkk]
        have : k ≠ k' := by
          intro he
          rw [← he, hk] at hkk
          simp at hkk
        simp [setProp, this]
      · rw [if_neg hkk]

theorem merge_relations_aux_not_mem (ex newProps : NotionProps) (k : String) :
    ∀ (ks : List String) (acc : NotionProps), k ∉ ks →
      merge_relations_aux ex newProps ks acc k = acc k := by
  intro ks
  induction ks with
  | nil => intro acc _; rfl
  | cons k' ks ih =>
      intro acc hmem
      have hne : k ≠ k' := fun he => hmem (he ▸ List.mem_cons_self k' ks)
      have hks : k ∉ ks := fun hm => hmem (List.mem_cons_of_mem _ hm)
      simp only [merge_relations_aux]
      rw [ih _ hks]
      by_cases hkk : (newProps k').isSome
      · rw [if_pos hkk]
        simp [setProp, hne]
      · rw [if_neg hkk]

theorem merge_relations_aux_mem (ex newProps : NotionProps) (k : String)
    (hk : (newProps k).isSome) :
    ∀ (ks : List String) (acc : NotionProps), k ∈ ks →
      merge_relations_aux ex newProps ks acc k
        = some (.relationVal (mergedRelationIds ex newProps k)) := by
  intro ks
  induction ks with
  | nil => intro acc hmem; exact absurd hmem (List.not_mem_nil k)
  | cons k' ks ih =>
      intro acc hmem
      by_cases hin : k ∈ ks
      · simp only [merge_relations_aux]
        exact ih _ hin
      · have hkk' : k = k' := by
          rcases List.mem_cons.mp hmem with h | h
          · exact h
          · exact absurd h hin
        subst hkk'
        simp only [merge_relations_aux, if_pos hk]
        rw [merge_relations_aux_not_mem ex newProps k ks _ hin]
        simp [setProp]

/-- Existing page relation targets for the example merge: `{A, B}`. -/
def exampleExistingProps : NotionProps :=
  fun k => if k = "relkey" then some (.relationVal ["A", "B"]) else none

/-- Freshly computed relation targets for the example merge: `{B, C}`. -/
def exampleNewProps : NotionProps :=
  fun k => if k = "relkey" then some (.relationVal ["B", "C"]) else none

/-- C4: for every relation key present in the freshly computed property set,
`_merge_relations` writes back the duplicate-free set union of the page's
existing relation targets and the fresh targets; merging existing `{A, B}`
with fresh `{B, C}` yields exactly `{A, B, C}`. -/
theorem C4_merge_relations_union :
    (∀ (relKeys : List String) (ex newProps : NotionProps) (k : String),
        k ∈ relKeys → (newProps k).isSome →
          merge_relations relKeys ex newProps k
              = some (.relationVal (mergedRelationIds ex newProps k))
            ∧ (∀ a, a ∈ mergedRelationIds ex newProps k ↔
                a ∈ propRelationIds ex k ∨ a ∈ propRelationIds newProps k)
            ∧ (mergedRelationIds ex newProps k).Nodup)
    ∧ mergedRelationIds exampleExistingProps exampleNewProps "relkey"
        = ["A", "B", "C"]
    ∧ merge_relations ["relkey"] exampleExistingProps exampleNewProps "relkey"
        = some (.relationVal ["A", "B", "C"]) := by
  refine ⟨?_, by decide, by decide⟩
  intro relKeys ex newProps k hmem hsome
  refine ⟨merge_relations_aux_mem ex newProps k hsome relKeys newProps hmem, ?_, ?_⟩
  · intro a
    simp [mergedRelationIds, List.mem_dedup, List.mem_append]
  · exact List.nodup_dedup _

/-- C4 witness: the universal clause applied to the concrete example
properties. -/
theorem C4_witness :
    merge_relations ["relkey"] exampleExistingProps exampleNewProps "relkey"
      = some (.relationVal
          (mergedRelationIds exampleExistingProps exampleNewProps "relkey")) :=
  (C4_merge_relations_union.1 ["relkey"] exampleExistingProps exampleNewProps
    "relkey" (by decide) (by decide)).1

/-- C5: a relation key absent from the freshly computed property set is
left out of the merged property set entirely, so the page's stored relation
targets for that field are not rewritten. -/
theorem C5_merge_relations_absent (relKeys : List String)
    (ex newProps : NotionProps) (k : String) (hk : newProps k = none) :
    merge_relations relKeys ex newProps k = none
      ∧ merge_relations relKeys ex newProps k = newProps k := by
  have h := merge_relations_aux_absent ex newProps k hk relKeys newProps
  exact ⟨h.trans hk, h⟩

/-- C5 witness: a concrete fresh property set with no entry for the
relation key leaves the key absent after the merge. -/
theorem C5_witness :
    merge_relations ["relkey"] exampleExistingProps (fun _ => none) "relkey" = none :=
  (C5_merge_relations_absent ["relkey"] exampleExistingProps (fun _ => none)
    "relkey" rfl).1

/-! ## Song candidate loop (`sync_song_page`, `_recording_appears_on_album`) -/

/-- A recording stub returned by the recording search; `recCandId` models
`result.get('id')` with `""` for an absent id and `recCandTitle` models
`result.get('title', '')`. -/
structure RecCandidate where
  recCandId : String
  recCandTitle : String
deriving DecidableEq, Repr

/-- The `limit` argument of the recording search issued by
`sync_song_page`. -/
def songRecordingSearchLimit : Nat := 20

/-- `_recording_appears_on_album(recording_id, album_mbid)`: the release is
fetched (modelled by `lookupRelease`); an unresolvable release yields
`false`, otherwise the recording id is looked for among all media tracks. -/
def recording_appears_on_album (lookupRelease : String → Option MBRelease)
    (recordingId : String) (albumMbid : String) : Bool :=
  match lookupRelease albumMbid with
  | none => false
  | some rel =>
      (rel.media.flatMap MBMedium.tracks).any (fun t => t.recId = recordingId)

/-- The candidate loop of `sync_song_page`: iterate the search results in
order; skip a candidate whose title is not an exact normalised match of the
local title; when an album MBID is known, additionally skip a candidate
(with a truthy id) that does not appear on that album; accept the first
surviving candidate. -/
def findBestSongMatch (lookupRelease : String → Option MBRelease)
    (localTitle : String) (albumMbid : Option String) :
    List RecCandidate → Option RecCandidate
  | [] => none
  | c :: cs =>
      if titles_match_exactly (some localTitle) (some c.recCandTitle) = false then
        findBestSongMatch lookupRelease localTitle albumMbid cs
      else
        match albumMbid with
        | some am =>
            if c.recCandId ≠ "" ∧
                recording_appears_on_album lookupRelease c.recCandId am = false then
              findBestSongMatch lookupRelease localTitle albumMbid cs
            else some c
        | none => some c

/-- Outcome of the search-driven branch of `sync_song_page`: either the
first surviving candidate, or the not-found failure (`return False`). -/
inductive SongSearchOutcome where
  | accepted (c : RecCandidate)
  | notFound
deriving DecidableEq, Repr

/-- The decision taken by `sync_song_page` after the candidate loop: no
surviving candidate means the sync reports failure. -/
def songSearchResolve (lookupRelease : String → Option MBRelease)
    (localTitle : String) (albumMbid : Option String)
    (results : List RecCandidate) : SongSearchOutcome :=
  match findBestSongMatch lookupRelease localTitle albumMbid results with
  | none => .notFound
  | some c => .accepted c

theorem findBestSongMatch_album_eq_find (lookupRelease : String → Option MBRelease)
    (localTitle : String) (am : String) (results : List RecCandidate)
    (hids : ∀ c ∈ results, c.recCandId ≠ "") :
    findBestSongMatch lookupRelease localTitle (some am) results
      = results.find? (fun c =>
          titles_match_exactly (some localTitle) (some c.recCandTitle) &&
            recording_appears_on_album lookupRelease c.recCandId am) := by
  induction results with
  | nil => rfl
  | cons c cs ih =>
      have hid : c.recCandId ≠ "" := hids c (List.mem_cons_self c cs)
      have hrest : ∀ c' ∈ cs, c'.recCandId ≠ "" :=
        fun c' hm => hids c' (List.mem_cons_of_mem _ hm)
      simp only [findBestSongMatch, List.find?]
      by_cases ht : titles_match_exactly (some localTitle) (some c.recCandTitle) = false
      · simp [ht, ih hrest]
      · have ht' : titles_match_exactly (some localTitle) (some c.recCandTitle) = true := by
          cases h : titles_match_exactly (some localTitle) (some c.recCandTitle)
          · exact absurd h ht
          · rfl
        by_cases ha : recording_appears_on_album lookupRelease c.recCandId am = false
        · simp [ht, ht', ha, hid, ih hrest]
        · have ha' : recording_appears_on_album lookupRelease c.recCandId am = true := by
            cases h : recording_appears_on_album lookupRelease c.recCandId am
            · exact absurd h ha
            · rfl
          simp [ht, ht', ha']

theorem findBestSongMatch_no_album_eq_find
    (lookupRelease : String → Option MBRelease) (localTitle : String)
    (results : List RecCandidate) :
    findBestSongMatch lookupRelease localTitle none results
      = results.find? (fun c =>
          titles_match_exactly (some localTitle) (some c.recCandTitle)) := by
  induction results with
  | nil => rfl
  | cons c cs ih =>
      simp only [findBestSongMatch, List.find?]
      by_cases ht : titles_match_exactly (some localTitle) (some c.recCandTitle) = false
      · simp [ht, ih]
      · have ht' : titles_match_exactly (some localTitle) (some c.recCandTitle) = true := by
          cases h : titles_match_exactly (some localTitle) (some c.recCandTitle)
          · exact absurd h ht
          · rfl
        simp [ht', ht]

/-- C3: the recording search of `sync_song_page` uses limit 20; the results
are scanned in order and the accepted candidate is exactly the first one
whose title matches the local title exactly and, when the linked album's
MBID is known, which is verified present in that release's track listing
(candidates, which always carry an id, are otherwise skipped); with no album
MBID only the exact-title filter applies; and when no candidate survives the
sync reports not-found instead of accepting an inexact or unverified
candidate. -/
theorem C3_song_resolution_loop :
    songRecordingSearchLimit = 20
    ∧ (∀ (lookupRelease : String → Option MBRelease) (localTitle am : String)
          (results : List RecCandidate), (∀ c ∈ results, c.recCandId ≠ "") →
          findBestSongMatch lookupRelease localTitle (some am) results
            = results.find? (fun c =>
                titles_match_exactly (some localTitle) (some c.recCandTitle) &&
                  recording_appears_on_album lookupRelease c.recCandId am))
    ∧ (∀ (lookupRelease : String → Option MBRelease) (localTitle : String)
          (results : List RecCandidate),
          findBestSongMatch lookupRelease localTitle none results
            = results.find? (fun c =>
                titles_match_exactly (some localTitle) (some c.recCandTitle)))
    ∧ (∀ (lookupRelease : String → Option MBRelease) (localTitle : String)
          (albumMbid : Option String) (results : List RecCandidate),
          findBestSongMatch lookupRelease localTitle albumMbid results = none →
          songSearchResolve lookupRelease localTitle albumMbid results
            = SongSearchOutcome.notFound) := by
  refine ⟨rfl, findBestSongMatch_album_eq_find, findBestSongMatch_no_album_eq_find, ?_⟩
  intro lookupRelease localTitle albumMbid results h
  simp [songSearchResolve, h]

/-- A concrete release used by the C3 and C7 witnesses: the album "OK" with
the single track "Creep". -/
def exampleAlbumRelease : MBRelease :=
  { relId := "alb-1", relTitle := "OK", country := "US",
    releaseEvents := [], date := "1992",
    releaseGroup := some { rgType := "Album", firstReleaseDate := "" },
    media := [{ tracks := [{ recId := "rec-1", recTitle := "Creep" }] }] }

/-- A release lookup table holding only `exampleAlbumRelease`. -/
def exampleLookup : String → Option MBRelease :=
  fun m => if m = "alb-1" then some exampleAlbumRelease else none

/-- C3 witness: with the album MBID known, of two exact-title candidates
only the one verified on the album's track list is accepted. -/
theorem C3_witness :
    findBestSongMatch exampleLookup "Creep" (some "alb-1")
        [{ recCandId := "rec-9", recCandTitle := "Creep" },
         { recCandId := "rec-1", recCandTitle := "Creep" }]
      = some { recCandId := "rec-1", recCandTitle := "Creep" } := by
  have h := C3_song_resolution_loop.2.1 exampleLookup "Creep" "alb-1"
    [{ recCandId := "rec-9", recCandTitle := "Creep" },
     { recCandId := "rec-1", recCandTitle := "Creep" }]
    (by decide)
  rw [h]
  decide

/-! ## Skip policy (`sync_artist_page`, `sync_song_page`, `sync_label_page`,
`sync_album_page`) -/

/-- How the resolution phase of a sync function proceeds: skip the page,
reuse the entity fetched for the stored MBID, or fall through to the search
strategy. -/
inductive ResolveStep where
  | skipped
  | useExisting
  | needsSearch
deriving DecidableEq, Repr

/-- The existing-MBID decision shared verbatim by `sync_artist_page`,
`sync_song_page` and `sync_label_page`: with a stored MBID the entity is
fetched once from the metadata API (the second component counts those
requests, assuming a cold per-run cache); if the fetch succeeds the page is
skipped unless the force flag is set, and if it fails the code falls back to
the search strategy. -/
def simple_resolve_step (resolves : String → Bool) (existing : Option String)
    (force : Bool) : ResolveStep × Nat :=
  match existing with
  | none => (.needsSearch, 0)
  | some m =>
      if resolves m then
        if force = false then (.skipped, 1) else (.useExisting, 1)
      else (.needsSearch, 1)

/-- The existing-MBID decision of `sync_album_page`: the stored release is
fetched once; when the page has linked songs (by MBID or by title) the
release is reverified to contain them all, a failed verification forcing a
new search regardless of the force flag; otherwise the skip/force logic of
the simple kinds applies. -/
def album_resolve_step (lookupRel : String → Option MBRelease)
    (existing : Option String) (songMbids songTitles : List String)
    (force : Bool) : ResolveStep × Nat :=
  match existing with
  | none => (.needsSearch, 0)
  | some m =>
      match lookupRel m with
      | none => (.needsSearch, 1)
      | some r =>
          if songMbids ≠ [] ∨ songTitles ≠ [] then
            if release_contains_recordings r songMbids songTitles = false then
              (.needsSearch, 1)
            else if force = false then (.skipped, 1) else (.useExisting, 1)
          else if force = false then (.skipped, 1) else (.useExisting, 1)

/-- C7 counterexample: a record whose stored external ID still resolves is
skipped, but the skip is decided only after one metadata-API request (the
validating detail fetch), not zero as the claim states. -/
theorem C7_counterexample :
    simple_resolve_step (fun _ => true) (some "mbid-1") false
        ≠ (ResolveStep.skipped, 0)
      ∧ simple_resolve_step (fun _ => true) (some "mbid-1") false
          = (ResolveStep.skipped, 1) := by
  constructor
  · intro h
    simp [simple_resolve_step] at h
  · rfl

/-- C7 amended: for every kind, a record whose stored external ID still
resolves is skipped without any search call when the force flag is off —
the only metadata request of the resolution phase is the single detail
fetch validating the stored ID — except that `sync_album_page`, when linked
songs exist, reverifies that the stored release contains them all and falls
back to a fresh search (regardless of the force flag) when the
reverification fails. -/
theorem C7_skip_policy :
    (∀ (resolves : String → Bool) (m : String), resolves m = true →
        simple_resolve_step resolves (some m) false = (.skipped, 1))
    ∧ (∀ (lookupRel : String → Option MBRelease) (m : String) (r : MBRelease)
          (songMbids songTitles : List String),
        lookupRel m = some r →
        release_contains_recordings r songMbids songTitles = true →
        album_resolve_step lookupRel (some m) songMbids songTitles false
          = (.skipped, 1))
    ∧ (∀ (lookupRel : String → Option MBRelease) (m : String) (r : MBRelease)
          (songMbids songTitles : List String) (force : Bool),
        lookupRel m = some r →
        songMbids ≠ [] ∨ songTitles ≠ [] →
        release_contains_recordings r songMbids songTitles = false →
        album_resolve_step lookupRel (some m) songMbids songTitles force
          = (.needsSearch, 1)) := by
  refine ⟨?_, ?_, ?_⟩
  · intro resolves m h
    simp [simple_resolve_step, h]
  · intro lookupRel m r songMbids songTitles hl hc
    by_cases hreq : songMbids ≠ [] ∨ songTitles ≠ []
    · simp [album_resolve_step, hl, hreq, hc]
    · simp [album_resolve_step, hl, hreq]
  · intro lookupRel m r songMbids songTitles force hl hreq hc
    simp [album_resolve_step, hl, hreq, hc]

/-- C7 witness: the album clause at the concrete example release, whose
stored MBID resolves and which contains the one required song. -/
theorem C7_witness :
    album_resolve_step exampleLookup (some "alb-1") ["rec-1"] [] false
      = (ResolveStep.skipped, 1) :=
  C7_skip_policy.2.1 exampleLookup "alb-1" exampleAlbumRelease ["rec-1"] []
    (by decide) (by decide)

/-! ## Cover-art lookup (`get_cover_art_url`) -/

/-- One entry of the cover-art endpoint's `images` list. -/
structure CoverImage where
  front : Bool
  image : Option String
deriving DecidableEq, Repr

/-- Result of the cover-art HTTP fetch for a release: either the parsed
`images` list, or any error (request failure after retries, bad JSON),
which the code catches and turns into `None`. -/
inductive CoverFetch where
  | fetchError
  | page (images : List CoverImage)

/-- The per-instance cover-art cache `self._cache['cover_art']`: `none`
means the release id is not cached, `some v` that `v` (itself possibly a
Python `None`) is the cached value. -/
def CoverCache := String → Option (Option String)

/-- `get_cover_art_url(release_mbid)`, returning the value, the updated
cache, and the number of outbound HTTP requests made by the call: a cached
id is answered with no request; otherwise the endpoint is queried once, and
only when a front cover is found is its `image` value stored in the cache —
the `None` answers (no front cover, fetch error) leave the cache
untouched. -/
def get_cover_art_url (world : String → CoverFetch) (cache : CoverCache)
    (releaseMbid : String) : Option String × CoverCache × Nat :=
  match cache releaseMbid with
  | some v => (v, cache, 0)
  | none =>
      match world releaseMbid with
      | .fetchError => (none, cache, 1)
      | .page images =>
          match images.find? (·.front) with
          | some img =>
              (img.image,
                fun k => if k = releaseMbid then some img.image else cache k, 1)
          | none => (none, cache, 1)

/-- The empty cover-art cache of a fresh client instance. -/
def emptyCoverCache : CoverCache := fun _ => none

/-- A cover-art world whose every release resolves to an image list without
a front cover. -/
def noFrontWorld : String → CoverFetch := fun _ => .page [⟨false, some "u"⟩]

/-- C8 counterexample: a release whose cover-art page has no front cover
returns `None`, but the miss is not stored in the cache, so the repeated
call performs another network request instead of none. -/
theorem C8_counterexample :
    (get_cover_art_url noFrontWorld emptyCoverCache "r1").1 = none
      ∧ (get_cover_art_url noFrontWorld
          (get_cover_art_url noFrontWorld emptyCoverCache "r1").2.1 "r1").2.2 = 1
      ∧ ¬((get_cover_art_url noFrontWorld
          (get_cover_art_url noFrontWorld emptyCoverCache "r1").2.1 "r1").2.2 = 0) := by
  refine ⟨rfl, rfl, ?_⟩
  intro h
  simp [get_cover_art_url, noFrontWorld, emptyCoverCache] at h

/-- C8 amended: `get_cover_art_url` is memoized per release id only for
calls that find a front cover: that result (the front cover's `image`
value) is cached, and a repeated call answers from the cache with no
further network request and the same value; a `None` result — no front
cover, or a fetch error — is not cached, and a repeated call issues a new
request. -/
theorem C8_cover_art_memoization :
    (∀ (world : String → CoverFetch) (cache : CoverCache) (m : String)
        (v : Option String), cache m = some v →
        get_cover_art_url world cache m = (v, cache, 0))
    ∧ (∀ (world : String → CoverFetch) (cache : CoverCache) (m : String)
          (images : List CoverImage) (img : CoverImage),
        cache m = none → world m = .page images →
        images.find? (·.front) = some img →
        (get_cover_art_url world cache m).1 = img.image
          ∧ (get_cover_art_url world cache m).2.2 = 1
          ∧ get_cover_art_url world (get_cover_art_url world cache m).2.1 m
              = (img.image, (get_cover_art_url world cache m).2.1, 0))
    ∧ (∀ (world : String → CoverFetch) (cache : CoverCache) (m : String)
          (images : List CoverImage),
        cache m = none → world m = .page images →
        images.find? (·.front) = none →
        get_cover_art_url world cache m = (none, cache, 1))
    ∧ (∀ (world : String → CoverFetch) (cache : CoverCache) (m : String),
        cache m = none → world m = .fetchError →
        get_cover_art_url world cache m = (none, cache, 1)) := by
  refine ⟨?_, ?_, ?_, ?_⟩
  · intro world cache m v h
    simp [get_cover_art_url, h]
  · intro world cache m images img hc hw hf
    refine ⟨?_, ?_, ?_⟩
    · simp [get_cover_art_url, hc, hw, hf]
    · simp [get_cover_art_url, hc, hw, hf]
    · have h1 : (get_cover_art_url world cache m).2.1 m = some img.image := by
        simp [get_cover_art_url, hc, hw, hf]
      simp only [get_cover_art_url, h1]
      simp [get_cover_art_url, hc, hw, hf]
  · intro world cache m images hc hw hf
    simp [get_cover_art_url, hc, hw, hf]
  · intro world cache m hc hw
    simp [get_cover_art_url, hc, hw]

/-- C8 witness: the front-cover clause at a concrete world with a single
front cover image. -/
theorem C8_witness :
    (get_cover_art_url (fun _ => .page [⟨true, some "cover-url"⟩])
        emptyCoverCache "r2").1 = some "cover-url" :=
  ((C8_cover_art_memoization.2.1 (fun _ => .page [⟨true, some "cover-url"⟩])
    emptyCoverCache "r2" [⟨true, some "cover-url"⟩] ⟨true, some "cover-url"⟩
    rfl rfl rfl).1)

/-! ## Retry loop (`_make_api_request`) -/

/-- Outcome of one HTTP attempt: a status code, or a transport-level
request exception. -/
inductive ApiResp where
  | status (code : Nat)
  | netError
deriving DecidableEq, Repr

/-- Result of `_make_api_request`: a returned response, or the error raised
to the caller after retries are exhausted (`raise_for_status` for an HTTP
status, re-raise for a request exception; `exhausted` is the dead
`raise Exception("Max retries exceeded")` after the loop). -/
inductive ApiCallResult where
  | ok (code : Nat)
  | raisedStatus (code : Nat)
  | raisedNet
  | exhausted
deriving DecidableEq, Repr

/-- The `for attempt in range(max_retries + 1)` loop of
`_make_api_request`, with the attempt counter and remaining fuel explicit;
the second component records the `time.sleep` waits (exact rationals) taken
before each retry: `2**attempt + 1` after a 429 and `1 + attempt * 0.5`
after another ≥ 400 status or a request exception. -/
def apiAttempts (responses : Nat → ApiResp) (maxRetries : Nat) :
    Nat → Nat → ApiCallResult × List ℚ
  | _, 0 => (.exhausted, [])
  | attempt, fuel + 1 =>
      match responses attempt with
      | .netError =>
          if attempt < maxRetries then
            let rest := apiAttempts responses maxRetries (attempt + 1) fuel
            (rest.1, (1 + (attempt : ℚ) * (1 / 2)) :: rest.2)
          else (.raisedNet, [])
      | .status code =>
          if code = 429 then
            if attempt < maxRetries then
              let rest := apiAttempts responses maxRetries (attempt + 1) fuel
              (rest.1, ((2 : ℚ) ^ attempt + 1) :: rest.2)
            else (.raisedStatus code, [])
          else if 400 ≤ code then
            if attempt < maxRetries then
              let rest := apiAttempts responses maxRetries (attempt + 1) fuel
              (rest.1, (1 + (attempt : ℚ) * (1 / 2)) :: rest.2)
            else (.raisedStatus code, [])
          else (.ok code, [])

/-- `_make_api_request` with its default `max_retries=3`: attempts 0 to 3. -/
def make_api_request (responses : Nat → ApiResp) : ApiCallResult × List ℚ :=
  apiAttempts responses 3 0 4

/-- C9 counterexample: a permanently rate-limited endpoint is retried 3
times with waits 2, 3 and 5 units and then the error is raised; no wait of
9 units ever happens, contradicting the claimed wait sequence 2, 3, 5, 9. -/
theorem make_api_request_all_429 :
    make_api_request (fun _ => .status 429) = (.raisedStatus 429, [2, 3, 5]) := by
  have e : make_api_request (fun _ => .status 429)
      = (.raisedStatus 429,
          [(2 : ℚ) ^ (0 : ℕ) + 1, (2 : ℚ) ^ (1 : ℕ) + 1, (2 : ℚ) ^ (2 : ℕ) + 1]) := rfl
  rw [e]
  norm_num

theorem C9_counterexample :
    make_api_request (fun _ => .status 429) = (.raisedStatus 429, [2, 3, 5])
      ∧ (make_api_request (fun _ => .status 429)).2 ≠ [2, 3, 5, 9]
      ∧ (9 : ℚ) ∉ (make_api_request (fun _ => .status 429)).2 := by
  refine ⟨make_api_request_all_429, ?_, ?_⟩
  · rw [make_api_request_all_429]
    intro h
    have := congrArg List.length h
    simp at this
  · rw [make_api_request_all_429]
    intro h
    simp only [List.mem_cons, List.not_mem_nil, or_false] at h
    rcases h with h | h | h <;> norm_num at h

/-- C9 amended: `_make_api_request` retries a failing request up to 3
times, waiting 2, 3 and 5 units before the successive retries of HTTP 429
responses (exponential backoff `2**attempt + 1`) and `1 + 0.5 * attempt`
units — 1, 1.5, 2 — before retries of other ≥ 400 responses or request
exceptions (linear backoff); after the retries are exhausted the error is
raised to the caller, while a status below 400 is returned at once. -/
theorem C9_retry_backoff :
    (∀ responses : Nat → ApiResp, (∀ n, responses n = .status 429) →
        make_api_request responses = (.raisedStatus 429, [2, 3, 5]))
    ∧ (∀ (responses : Nat → ApiResp) (c : Nat), 400 ≤ c → c ≠ 429 →
        (∀ n, responses n = .status c) →
        make_api_request responses = (.raisedStatus c, [1, 3 / 2, 2]))
    ∧ (∀ responses : Nat → ApiResp, (∀ n, responses n = .netError) →
        make_api_request responses = (.raisedNet, [1, 3 / 2, 2]))
    ∧ (∀ (responses : Nat → ApiResp) (c : Nat), c < 400 →
        responses 0 = .status c →
        make_api_request responses = (.ok c, [])) := by
  refine ⟨?_, ?_, ?_, ?_⟩
  · intro responses h
    rw [funext h]
    exact make_api_request_all_429
  · intro responses c hc hne h
    rw [funext h]
    have e : make_api_request (fun _ => ApiResp.status c)
        = apiAttempts (fun _ => ApiResp.status c) 3 0 4 := rfl
    rw [e]
    have step : ∀ attempt fuel, attempt < 3 →
        apiAttempts (fun _ => ApiResp.status c) 3 attempt (fuel + 1)
          = ((apiAttempts (fun _ => ApiResp.status c) 3 (attempt + 1) fuel).1,
              (1 + (attempt : ℚ) * (1 / 2)) ::
                (apiAttempts (fun _ => ApiResp.status c) 3 (attempt + 1) fuel).2) := by
      intro attempt fuel hlt
      simp [apiAttempts, hne, hc, hlt]
    have last : apiAttempts (fun _ => ApiResp.status c) 3 3 1
        = (.raisedStatus c, []) := by
      simp [apiAttempts, hne, hc]
    rw [show (4 : Nat) = 3 + 1 from rfl, step 0 3 (by omega),
      show (3 : Nat) = 2 + 1 from rfl, step 1 2 (by omega),
      show (2 : Nat) = 1 + 1 from rfl, step 2 1 (by omega)]
    rw [show (2 + 1 : Nat) = 3 from rfl] at *
    rw [last]
    norm_num
  · intro responses h
    rw [funext h]
    have e : make_api_request (fun _ => ApiResp.netError)
        = (.raisedNet,
            [1 + ((0 : ℕ) : ℚ) * (1 / 2), 1 + ((1 : ℕ) : ℚ) * (1 / 2),
              1 + ((2 : ℕ) : ℚ) * (1 / 2)]) := rfl
    rw [e]
    norm_num
  · intro responses c hc h0
    have h429 : c ≠ 429 := by omega
    have h400 : ¬(400 ≤ c) := by omega
    simp [make_api_request, apiAttempts, h0, h429, h400]

/-- C9 witness: the linear-backoff clause at a permanently failing 404
endpoint. -/
theorem C9_witness :
    make_api_request (fun _ => ApiResp.status 404)
      = (ApiCallResult.raisedStatus 404, [1, 3 / 2, 2]) :=
  C9_retry_backoff.2.1 (fun _ => ApiResp.status 404) 404 (by decide) (by decide)
    (fun _ => rfl)

end MusicSync
